import Mathlib

/-!
# Network-monitor dashboard (`src/App.js`)

A shallow embedding of the React component `App`: its state, the four
asynchronous handlers (`fetchMetrics`, `fetchTraceroute`, `handleAddHost`,
`handleRemoveHost`), the pure helpers (`getLatencyColor`, `getLatencyBg`,
`getAlertStyle`, `timeAgo`) and the parts of the rendered tree that depend on
the data (host cards, alert feed, online-host count, screen selection).

Modelling conventions

* JavaScript values that come off the wire are `JSVal`: the JSON values plus
  `undefined`.  A finite number is the rational it denotes, and the results of
  `-` and `/` are rounded to binary64 (`roundDouble`: round to nearest, ties to
  even); comparisons and `Math.floor` are exact, as they are on doubles.  The
  infinities and negative zero are not modelled.  `NaN` appears only as the
  result of a numeric conversion and is the `none` of `Option ℚ`.
* Conversions whose result the ECMAScript runtime fixes but the program does
  not (`Number::toString`, `StringToNumber`, `ToPrimitive` on objects) are
  fields of a `Runtime` record; every theorem holds for every runtime.
* A thrown exception is the `error` of `Except JSError`.
* An `await` is sequentialised: the environment answers each `fetch`
  immediately, and a handler runs to completion before the next event.
  `console.error` has no effect on the state and is left out.
-/

namespace NetworkMonitor

/-! ## JavaScript values -/

/-- JSON values together with `undefined`.  An `obj` lists the own enumerable
properties of the object in enumeration order, with distinct keys. -/
inductive JSVal where
  | undefined
  | null
  | bool (b : Bool)
  | num (q : ℚ)
  | str (s : String)
  | arr (items : List JSVal)
  | obj (props : List (String × JSVal))

/-- Exceptions the modelled code can raise. -/
inductive JSError where
  | typeError
  | error (message : String)

/-- Conversions provided by the ECMAScript runtime. -/
structure Runtime where
  /-- `Number::toString` on a finite number. -/
  numToString : ℚ → String
  /-- `StringToNumber`; `none` is `NaN`. -/
  strToNumber : String → Option ℚ
  /-- `ToPrimitive` with the default conversions on an array or an object:
  always a string for values built by `JSON.parse`. -/
  objToString : JSVal → String

/-- `ToBoolean`. -/
def truthy : JSVal → Bool
  | .undefined => false
  | .null => false
  | .bool b => b
  | .num q => decide (q ≠ 0)
  | .str s => decide (s ≠ "")
  | .arr _ => true
  | .obj _ => true

/-- `a || b`. -/
def jsOr (a b : JSVal) : JSVal :=
  if truthy a then a else b

/-- `ToNumber`; `none` is `NaN`. -/
def toNumber (rt : Runtime) : JSVal → Option ℚ
  | .undefined => none
  | .null => some 0
  | .bool b => some (if b then 1 else 0)
  | .num q => some q
  | .str s => rt.strToNumber s
  | .arr items => rt.strToNumber (rt.objToString (.arr items))
  | .obj props => rt.strToNumber (rt.objToString (.obj props))

/-- `Number::toString`, `NaN` included. -/
def numberToString (rt : Runtime) : Option ℚ → String
  | none => "NaN"
  | some q => rt.numToString q

/-- `ToString`, as applied to a substitution of a template literal. -/
def toStr (rt : Runtime) : JSVal → String
  | .undefined => "undefined"
  | .null => "null"
  | .bool b => if b then "true" else "false"
  | .num q => rt.numToString q
  | .str s => s
  | .arr items => rt.objToString (.arr items)
  | .obj props => rt.objToString (.obj props)

/-- `a < b` on numbers: false as soon as one side is `NaN`. -/
def numLt (a b : Option ℚ) : Bool :=
  match a, b with
  | some x, some y => decide (x < y)
  | _, _ => false

/-- The integer nearest to `x`, the even one when `x` lies half-way between
two integers. -/
def roundHalfEven (x : ℚ) : ℤ :=
  if x - Int.floor x < 1 / 2 then Int.floor x
  else if 1 / 2 < x - Int.floor x then Int.floor x + 1
  else if Int.floor x % 2 = 0 then Int.floor x
  else Int.floor x + 1

/-- The binary64 exponent of `x`: the `e` with `2 ^ e ≤ |x| < 2 ^ (e + 1)`, and
`-1022`, the exponent of the subnormal numbers, below `2 ^ (-1022)`. -/
def binaryExponent (x : ℚ) : ℤ :=
  max (Int.log 2 |x|) (-1022)

/-- The binary64 number an exact result `x` is rounded to: the nearest multiple
of the unit in the last place `2 ^ (e - 52)`, ties to the even significand.  The
exponent is not bounded above: a result beyond the largest binary64 number,
which JavaScript turns into an infinity, is not modelled.  None arises in
`timeAgo` for a timestamp that is a binary64 number. -/
def roundDouble (x : ℚ) : ℚ :=
  (roundHalfEven (x / 2 ^ (binaryExponent x - 52)) : ℚ) * 2 ^ (binaryExponent x - 52)

/-- `a - b` on numbers: the exact difference rounded to binary64. -/
def numSub (a b : Option ℚ) : Option ℚ :=
  match a, b with
  | some x, some y => some (roundDouble (x - y))
  | _, _ => none

/-- `a / b` on numbers, for a non-zero finite divisor `b`: the exact quotient
rounded to binary64. -/
def numDiv (a : Option ℚ) (b : ℚ) : Option ℚ :=
  a.map (fun x => roundDouble (x / b))

/-- `Math.floor`. -/
def mathFloor (a : Option ℚ) : Option ℚ :=
  a.map (fun x => ((Int.floor x : ℤ) : ℚ))

/-- Look a key up in a property list. -/
def lookupProp (key : String) : List (String × JSVal) → JSVal
  | [] => .undefined
  | (k, v) :: rest => if k = key then v else lookupProp key rest

/-- Property read `v.key` for a key that no built-in prototype defines (all the
names the program reads by dot: `metrics`, `alerts`, `latest`, `ema`,
`has_traceroute`, `error`).  Reading a property of `undefined` or `null` throws
a `TypeError`; a primitive or an array has no such property. -/
def getProp (v : JSVal) (key : String) : Except JSError JSVal :=
  match v with
  | .undefined => .error .typeError
  | .null => .error .typeError
  | .obj props => .ok (lookupProp key props)
  | _ => .ok .undefined

/-- Indexed read `v[i]`.  A string is indexed by character (which is the
UTF-16 code unit for characters of the basic plane). -/
def getIndex (v : JSVal) (i : Nat) : Except JSError JSVal :=
  match v with
  | .undefined => .error .typeError
  | .null => .error .typeError
  | .arr items => .ok (items.getD i .undefined)
  | .obj props => .ok (lookupProp (toString i) props)
  | .str s => .ok (match s.data.get? i with
      | some c => .str (String.singleton c)
      | none => .undefined)
  | _ => .ok .undefined

/-- Apply a callback to each element in order; the first exception aborts. -/
def traverse {α β : Type} (f : α → Except JSError β) : List α → Except JSError (List β)
  | [] => .ok []
  | a :: rest =>
    match f a with
    | .error e => .error e
    | .ok b =>
      match traverse f rest with
      | .error e => .error e
      | .ok bs => .ok (b :: bs)

/-! ## Pure helpers of `App` -/

/-- The constant `API_BASE`. -/
def API_BASE : String := "http://127.0.0.1:5000"

/-- The function `getLatencyColor`. -/
def getLatencyColor (rt : Runtime) (latency : JSVal) : String :=
  if !truthy latency then "text-gray-400"
  else if numLt (toNumber rt latency) (some 50) then "text-green-600"
  else if numLt (toNumber rt latency) (some 150) then "text-yellow-600"
  else "text-red-600"

/-- The function `getLatencyBg`. -/
def getLatencyBg (rt : Runtime) (latency : JSVal) : String :=
  if !truthy latency then "bg-gray-100"
  else if numLt (toNumber rt latency) (some 50) then "bg-green-50"
  else if numLt (toNumber rt latency) (some 150) then "bg-yellow-50"
  else "bg-red-50"

/-- The function `getAlertStyle`: a `switch` with strict equality on strings. -/
def getAlertStyle (type : JSVal) : String :=
  match type with
  | .str s =>
    if s = "anomaly" then "bg-red-50 border-l-4 border-red-500 text-red-800"
    else if s = "traceroute" then "bg-yellow-50 border-l-4 border-yellow-500 text-yellow-800"
    else if s = "failure" then "bg-red-100 border-l-4 border-red-600 text-red-900"
    else if s = "error" then "bg-gray-50 border-l-4 border-gray-500 text-gray-800"
    else "bg-blue-50 border-l-4 border-blue-500 text-blue-800"
  | _ => "bg-blue-50 border-l-4 border-blue-500 text-blue-800"

/-- The value `seconds` of `timeAgo`, with `now` the value of `Date.now()`
(milliseconds). -/
def elapsedSeconds (rt : Runtime) (now : Nat) (timestamp : JSVal) : Option ℚ :=
  mathFloor (numSub (numDiv (some (now : ℚ)) 1000) (toNumber rt timestamp))

/-- The function `timeAgo`, with `now` the value of `Date.now()`. -/
def timeAgo (rt : Runtime) (now : Nat) (timestamp : JSVal) : String :=
  let seconds := elapsedSeconds rt now timestamp
  if numLt seconds (some 60) then numberToString rt seconds ++ "s ago"
  else if numLt seconds (some 3600) then
    numberToString rt (mathFloor (numDiv seconds 60)) ++ "m ago"
  else numberToString rt (mathFloor (numDiv seconds 3600)) ++ "h ago"

/-- The characters `String.prototype.trim` removes: the ECMAScript `WhiteSpace`
and `LineTerminator` code points. -/
def isTrimChar (c : Char) : Bool :=
  c.val = 0x09 || c.val = 0x0A || c.val = 0x0B || c.val = 0x0C || c.val = 0x0D ||
  c.val = 0x20 || c.val = 0xA0 || c.val = 0x1680 ||
  (0x2000 ≤ c.val && c.val ≤ 0x200A) ||
  c.val = 0x2028 || c.val = 0x2029 || c.val = 0x202F || c.val = 0x205F ||
  c.val = 0x3000 || c.val = 0xFEFF

/-- `String.prototype.trim`. -/
def jsTrim (s : String) : String :=
  String.mk ((s.data.dropWhile isTrimChar).reverse.dropWhile isTrimChar).reverse

/-- `v === s` for a string `s`. -/
def strictEqStr (v : JSVal) (s : String) : Bool :=
  match v with
  | .str t => decide (t = s)
  | _ => false

/-! ## State, network and handlers -/

/-- A call of `fetch`: a `GET` of a URL, or a `POST` of a form. -/
inductive Request where
  | get (url : String)
  | post (url : String) (form : List (String × String))

/-- How a `fetch` ends: the promise rejects, or it resolves to a response with
its `ok` flag and the result of `response.json()` (`none` when that rejects). -/
inductive FetchResult where
  | rejected
  | response (ok : Bool) (json : Option JSVal)

/-- The environment of one handler run: the answer of the network to each
request, and the clock read by `new Date()`. -/
structure Env where
  fetch : Request → FetchResult
  now : Nat

/-- The `useState` cells of `App`. -/
structure AppState where
  metrics : JSVal
  alerts : JSVal
  newHost : String
  selectedHost : JSVal
  traceroute : JSVal
  loading : Bool
  lastUpdate : Nat
  error : JSVal

/-- The component state together with the requests issued so far, oldest
first. -/
structure World where
  app : AppState
  sent : List Request

/-- The initial values of the `useState` cells; `mountTime` is the `new Date()`
of the first render. -/
def initialState (mountTime : Nat) : AppState :=
  { metrics := .obj []
    alerts := .arr []
    newHost := ""
    selectedHost := .null
    traceroute := .null
    loading := true
    lastUpdate := mountTime
    error := .null }

/-- Record a call of `fetch`. -/
def World.send (w : World) (req : Request) : World :=
  { w with sent := w.sent ++ [req] }

/-- The `catch` block of `fetchMetrics`. -/
def fetchMetricsCatch (w : World) : World :=
  { w with app := { w.app with
      error := .str "Failed to connect to backend. Make sure Flask server is running."
      loading := false } }

/-- The function `fetchMetrics`. -/
def fetchMetrics (env : Env) (w : World) : World :=
  let req := Request.get (API_BASE ++ "/metrics")
  let w1 := w.send req
  match env.fetch req with
  | .rejected => fetchMetricsCatch w1
  | .response ok json =>
    if !ok then fetchMetricsCatch w1
    else
      match json with
      | none => fetchMetricsCatch w1
      | some data =>
        match getProp data "metrics" with
        | .error _ => fetchMetricsCatch w1
        | .ok m =>
          let w2 : World := { w1 with app := { w1.app with metrics := jsOr m (.obj []) } }
          match getProp data "alerts" with
          | .error _ => fetchMetricsCatch w2
          | .ok a =>
            { w2 with app := { w2.app with
                alerts := jsOr a (.arr [])
                lastUpdate := env.now
                loading := false
                error := .null } }

/-- The two statements `setTraceroute(null); setSelectedHost(null);`, which
occur in `fetchTraceroute`, in `handleRemoveHost` and in the close button of the
traceroute panel. -/
def clearTraceroute (w : World) : World :=
  { w with app := { w.app with traceroute := .null, selectedHost := .null } }

/-- The function `fetchTraceroute`. -/
def fetchTraceroute (env : Env) (host : String) (w : World) : World :=
  let req := Request.get (API_BASE ++ "/api/traceroute/" ++ host)
  let w1 := w.send req
  match env.fetch req with
  | .rejected => clearTraceroute w1
  | .response ok json =>
    if !ok then clearTraceroute w1
    else
      match json with
      | none => clearTraceroute w1
      | some data =>
        match getProp data "error" with
        | .error _ => clearTraceroute w1
        | .ok e =>
          if truthy e then clearTraceroute w1
          else { w1 with app := { w1.app with traceroute := data, selectedHost := .str host } }

/-- The function `handleAddHost`; `newHost` is the value captured by the
closure of the render in which the handler was created. -/
def handleAddHost (env : Env) (w : World) : World :=
  let newHost := w.app.newHost
  if !truthy (.str (jsTrim newHost)) then w
  else
    let req := Request.post (API_BASE ++ "/add_host") [("host", jsTrim newHost)]
    let w1 := w.send req
    match env.fetch req with
    | .rejected => w1
    | .response ok _ =>
      if ok then fetchMetrics env { w1 with app := { w1.app with newHost := "" } }
      else w1

/-- The function `handleRemoveHost`; `selectedHost` is the value captured by
the closure of the render in which the handler was created. -/
def handleRemoveHost (env : Env) (host : String) (w : World) : World :=
  let selectedHost := w.app.selectedHost
  let req := Request.post (API_BASE ++ "/remove_host") [("host", host)]
  let w1 := w.send req
  match env.fetch req with
  | .rejected => w1
  | .response ok _ =>
    if ok then
      let w2 := fetchMetrics env w1
      if strictEqStr selectedHost host then clearTraceroute w2 else w2
    else w1

/-- The `onClick` of the "Retry Connection" button. -/
def retryConnection (env : Env) (w : World) : World :=
  fetchMetrics env { w with app := { w.app with loading := true, error := .null } }

/-- The `onChange` of the host input. -/
def changeNewHost (value : String) (w : World) : World :=
  { w with app := { w.app with newHost := value } }

/-! ## Rendering -/

/-- Which of the three `return` statements of `App` is taken. -/
inductive Screen where
  | loading
  | connectionError (message : JSVal)
  | dashboard

/-- The two early returns of `App`. -/
def screen (s : AppState) : Screen :=
  if s.loading then .loading
  else if truthy s.error then .connectionError s.error
  else .dashboard

/-- The icon beside the status label of a host card. -/
inductive StatusIcon where
  | wifi (className : String)
  | wifiOff (className : String)

/-- The data-dependent parts of one host card. -/
structure HostCard where
  key : String
  className : String
  title : String
  icon : StatusIcon
  statusText : String
  latencyClass : String
  latencyText : String
  ema : JSVal
  tracerouteButton : Bool

/-- The callback of `Object.entries(metrics).map`. -/
def hostCard (rt : Runtime) (host : String) (data : JSVal) : Except JSError HostCard := do
  let latest ← getProp data "latest"
  let ema ← getProp data "ema"
  let hasTraceroute ← getProp data "has_traceroute"
  pure
    { key := host
      className := getLatencyBg rt latest ++ " rounded-xl p-5 border-2 transition-all hover:shadow-lg"
      title := host
      icon :=
        if truthy latest then .wifi ("w-4 h-4 " ++ getLatencyColor rt latest)
        else .wifiOff "w-4 h-4 text-gray-400"
      statusText := if truthy latest then "Online" else "Offline"
      latencyClass := "text-2xl font-bold " ++ getLatencyColor rt latest
      latencyText := if truthy latest then toStr rt latest ++ "ms" else "N/A"
      ema := ema
      tracerouteButton := truthy hasTraceroute }

/-- The key of each element of a list, as `Object.entries` names them. -/
def indexed {α : Type} (f : α → JSVal) : Nat → List α → List (String × JSVal)
  | _, [] => []
  | i, a :: rest => (toString i, f a) :: indexed f (i + 1) rest

/-- `Object.entries`. -/
def objectEntries : JSVal → Except JSError (List (String × JSVal))
  | .undefined => .error .typeError
  | .null => .error .typeError
  | .obj props => .ok props
  | .arr items => .ok (indexed id 0 items)
  | .str s => .ok (indexed (fun c => JSVal.str (String.singleton c)) 0 s.data)
  | _ => .ok []

/-- `Object.values`. -/
def objectValues (v : JSVal) : Except JSError (List JSVal) :=
  (objectEntries v).map (fun entries => entries.map Prod.snd)

/-- The expression `Object.entries(metrics).map(...)`: the host cards. -/
def hostCards (rt : Runtime) (metrics : JSVal) : Except JSError (List HostCard) := do
  let entries ← objectEntries metrics
  traverse (fun entry => hostCard rt entry.1 entry.2) entries

/-- The callback `(m) => m.latest` of the online-host filter, as a boolean. -/
def isOnline (m : JSVal) : Except JSError Bool :=
  (getProp m "latest").map truthy

/-- The expression `Object.values(metrics).filter((m) => m.latest).length`. -/
def onlineHosts (metrics : JSVal) : Except JSError Nat := do
  let values ← objectValues metrics
  let flags ← traverse isOnline values
  pure (flags.filter id).length

/-- The data-dependent parts of one row of the alert feed. -/
structure AlertRow where
  key : Nat
  className : String
  message : JSVal
  time : String

/-- The callback of `.map((alert, idx) => ...)`. -/
def alertRow (rt : Runtime) (now : Nat) (alert : JSVal) (idx : Nat) : Except JSError AlertRow := do
  let kind ← getIndex alert 2
  let message ← getIndex alert 1
  let timestamp ← getIndex alert 0
  pure
    { key := idx
      className := getAlertStyle kind ++ " rounded-lg p-4"
      message := message
      time := timeAgo rt now timestamp }

/-- Apply `alertRow` to the elements in order, numbering them from `idx`. -/
def alertRowsFrom (rt : Runtime) (now : Nat) : Nat → List JSVal → Except JSError (List AlertRow)
  | _, [] => .ok []
  | idx, alert :: rest =>
    match alertRow rt now alert idx with
    | .error e => .error e
    | .ok row =>
      match alertRowsFrom rt now (idx + 1) rest with
      | .error e => .error e
      | .ok rows => .ok (row :: rows)

/-- `xs.slice()`: a fresh array with the same elements.  The pair is the
receiver afterwards and the value returned. -/
def arraySlice (xs : List JSVal) : List JSVal × List JSVal :=
  (xs, xs)

/-- `xs.reverse()`: reverses the receiver in place and returns it.  The pair is
the receiver afterwards and the value returned. -/
def arrayReverse (xs : List JSVal) : List JSVal × List JSVal :=
  (xs.reverse, xs.reverse)

/-- The content of the "Recent Alerts" box. -/
inductive AlertFeed where
  | rows (rs : List AlertRow)
  | allHealthy

/-- The rows a feed shows. -/
def AlertFeed.shown : AlertFeed → List AlertRow
  | .rows rs => rs
  | .allHealthy => []

/-- The expression
`alerts.length > 0 ? alerts.slice().reverse().map(...) : <placeholder>`.
The result is the feed and the value of the `alerts` cell after the
evaluation. -/
def alertFeed (rt : Runtime) (now : Nat) (alerts : JSVal) : Except JSError (AlertFeed × JSVal) :=
  match alerts with
  | .undefined => .error .typeError
  | .null => .error .typeError
  | .arr xs =>
    if xs.length > 0 then
      let sliced := arraySlice xs
      let reversed := arrayReverse sliced.2
      match alertRowsFrom rt now 0 reversed.2 with
      | .error e => .error e
      | .ok rows => .ok (.rows rows, .arr sliced.1)
    else .ok (.allHealthy, .arr xs)
  | .str s =>
    -- a string has `slice` but no `reverse`
    if s.length > 0 then .error .typeError else .ok (.allHealthy, .str s)
  | .obj props =>
    -- an object built by `JSON.parse` has no method `slice`
    if numLt (some 0) (toNumber rt (lookupProp "length" props)) then .error .typeError
    else .ok (.allHealthy, .obj props)
  | v => .ok (.allHealthy, v)

/-- The values on which a property read throws: `undefined` and `null`. -/
def nullish : JSVal → Bool
  | .undefined => true
  | .null => true
  | _ => false

/-- A runtime on which the model can be evaluated.  It prints whole numbers in
decimal, as ECMAScript does below 10^21, reads no string as a number and prints
every object as `[object Object]`; the results stated with it do not depend on
these choices. -/
def exampleRuntime : Runtime :=
  { numToString := fun q => if q.den = 1 then toString q.num else toString q.num ++ "/" ++ toString q.den
    strToNumber := fun _ => none
    objToString := fun _ => "[object Object]" }

/-- The request itself failed: the `fetch` rejected, the response was not ok,
or its body could not be read as JSON. -/
def requestFailed : FetchResult → Bool
  | .rejected => true
  | .response ok json => !ok || json.isNone

/-- The events that drive the component: a click on "View Traceroute"
(`fetchTraceroute`), on a card's remove button (`handleRemoveHost`) or on the
close button of the traceroute panel, and the events that leave the panel
alone: a poll (`fetchMetrics`), "Add Host", "Retry Connection" and typing in the
host input.  Each one carries the environment it runs in. -/
inductive Event where
  | viewTraceroute (env : Env) (host : String)
  | removeHost (env : Env) (host : String)
  | closePanel
  | poll (env : Env)
  | addHost (env : Env)
  | retry (env : Env)
  | typeHost (value : String)

/-- The handler an event runs. -/
def step (w : World) : Event → World
  | .viewTraceroute env host => fetchTraceroute env host w
  | .removeHost env host => handleRemoveHost env host w
  | .closePanel => clearTraceroute w
  | .poll env => fetchMetrics env w
  | .addHost env => handleAddHost env w
  | .retry env => retryConnection env w
  | .typeHost value => changeNewHost value w

/-- The world after a sequence of events, each handler run to completion
before the next. -/
def runEvents (w : World) (events : List Event) : World :=
  events.foldl step w

/-! ## Properties of the pure helpers -/

theorem numLt_some (x y : ℚ) : numLt (some x) (some y) = decide (x < y) := rfl

theorem toNumber_num (rt : Runtime) (q : ℚ) : toNumber rt (.num q) = some q := rfl

theorem truthy_num (q : ℚ) : truthy (.num q) = decide (q ≠ 0) := rfl

theorem elapsedSeconds_num (rt : Runtime) (now : Nat) (t : ℚ) :
    elapsedSeconds rt now (.num t)
      = some ((Int.floor (roundDouble (roundDouble ((now : ℚ) / 1000) - t)) : ℤ) : ℚ) := rfl

/-- C10: `getLatencyColor` and `getLatencyBg` put every value in the same one of
four bands, whose class names are distinct; an absent or zero latency is gray, a
non-zero one below 50 green, one in `[50, 150)` yellow, one of at least 150 red,
and every number satisfies exactly one of these four conditions. -/
theorem latency_bands_agree (rt : Runtime) :
    (∀ latency : JSVal,
      (getLatencyColor rt latency = "text-gray-400" ↔ getLatencyBg rt latency = "bg-gray-100") ∧
      (getLatencyColor rt latency = "text-green-600" ↔ getLatencyBg rt latency = "bg-green-50") ∧
      (getLatencyColor rt latency = "text-yellow-600" ↔ getLatencyBg rt latency = "bg-yellow-50") ∧
      (getLatencyColor rt latency = "text-red-600" ↔ getLatencyBg rt latency = "bg-red-50")) ∧
    (getLatencyColor rt .undefined = "text-gray-400" ∧ getLatencyBg rt .undefined = "bg-gray-100") ∧
    (getLatencyColor rt .null = "text-gray-400" ∧ getLatencyBg rt .null = "bg-gray-100") ∧
    (∀ q : ℚ,
      (q = 0 →
        getLatencyColor rt (.num q) = "text-gray-400" ∧ getLatencyBg rt (.num q) = "bg-gray-100") ∧
      (q ≠ 0 → q < 50 →
        getLatencyColor rt (.num q) = "text-green-600" ∧ getLatencyBg rt (.num q) = "bg-green-50") ∧
      (50 ≤ q → q < 150 →
        getLatencyColor rt (.num q) = "text-yellow-600" ∧ getLatencyBg rt (.num q) = "bg-yellow-50") ∧
      (150 ≤ q →
        getLatencyColor rt (.num q) = "text-red-600" ∧ getLatencyBg rt (.num q) = "bg-red-50") ∧
      (q = 0 ∨ (q ≠ 0 ∧ q < 50) ∨ (50 ≤ q ∧ q < 150) ∨ 150 ≤ q) ∧
      ¬(q = 0 ∧ q ≠ 0 ∧ q < 50) ∧ ¬(q = 0 ∧ 50 ≤ q) ∧ ¬(q = 0 ∧ 150 ≤ q) ∧
      ¬((q ≠ 0 ∧ q < 50) ∧ 50 ≤ q) ∧ ¬((q ≠ 0 ∧ q < 50) ∧ 150 ≤ q) ∧
      ¬((50 ≤ q ∧ q < 150) ∧ 150 ≤ q)) := by
  refine ⟨?_, ⟨rfl, rfl⟩, ⟨rfl, rfl⟩, ?_⟩
  · intro latency
    unfold getLatencyColor getLatencyBg
    cases truthy latency <;> cases numLt (toNumber rt latency) (some 50) <;>
      cases numLt (toNumber rt latency) (some 150) <;> simp
  · intro q
    refine ⟨?_, ?_, ?_, ?_, ?_, ?_, ?_, ?_, ?_, ?_, ?_⟩
    · intro h
      simp [getLatencyColor, getLatencyBg, truthy_num, h]
    · intro h0 h50
      simp [getLatencyColor, getLatencyBg, truthy_num, toNumber_num, numLt_some, h0, h50]
    · intro h50 h150
      simp [getLatencyColor, getLatencyBg, truthy_num, toNumber_num, numLt_some, h150,
        not_lt.mpr h50, (lt_of_lt_of_le (by norm_num : (0 : ℚ) < 50) h50).ne']
    · intro h150
      have h50 : (50 : ℚ) ≤ q := le_trans (by norm_num) h150
      simp [getLatencyColor, getLatencyBg, truthy_num, toNumber_num, numLt_some,
        not_lt.mpr h50, not_lt.mpr h150, (lt_of_lt_of_le (by norm_num : (0 : ℚ) < 50) h50).ne']
    · by_cases h0 : q = 0
      · exact Or.inl h0
      · rcases lt_or_le q 50 with h | h
        · exact Or.inr (Or.inl ⟨h0, h⟩)
        · rcases lt_or_le q 150 with h' | h'
          · exact Or.inr (Or.inr (Or.inl ⟨h, h'⟩))
          · exact Or.inr (Or.inr (Or.inr h'))
    · rintro ⟨h, h', -⟩
      exact h' h
    · rintro ⟨h, h'⟩
      rw [h] at h'
      norm_num at h'
    · rintro ⟨h, h'⟩
      rw [h] at h'
      norm_num at h'
    · rintro ⟨⟨-, h⟩, h'⟩
      exact absurd h (not_lt.mpr h')
    · rintro ⟨⟨-, h⟩, h'⟩
      linarith
    · rintro ⟨⟨-, h⟩, h'⟩
      exact absurd h (not_lt.mpr h')

/-! ## Rounding to binary64 -/

theorem roundHalfEven_intCast (n : ℤ) : roundHalfEven (n : ℚ) = n := by
  simp [roundHalfEven]

theorem floor_le_roundHalfEven (x : ℚ) : Int.floor x ≤ roundHalfEven x := by
  unfold roundHalfEven
  split
  · exact le_refl _
  · split
    · omega
    · split <;> omega

theorem roundHalfEven_le_floor_succ (x : ℚ) : roundHalfEven x ≤ Int.floor x + 1 := by
  unfold roundHalfEven
  split
  · omega
  · split
    · omega
    · split <;> omega

theorem abs_roundHalfEven_sub_le (x : ℚ) : |(roundHalfEven x : ℚ) - x| ≤ 1 / 2 := by
  have h1 := Int.floor_le x
  have h2 := Int.lt_floor_add_one x
  unfold roundHalfEven
  rw [abs_le]
  split
  · constructor <;> linarith
  · rename_i h
    split
    · push_cast
      constructor <;> linarith
    · rename_i h'
      have heq : x - Int.floor x = 1 / 2 := le_antisymm (not_lt.mp h') (not_lt.mp h)
      split
      · constructor <;> linarith
      · push_cast
        constructor <;> linarith

theorem le_roundHalfEven_of_le (n : ℤ) (x : ℚ) (h : (n : ℚ) ≤ x) : n ≤ roundHalfEven x :=
  le_trans (Int.le_floor.mpr h) (floor_le_roundHalfEven x)

theorem ulp_pos (x : ℚ) : (0 : ℚ) < 2 ^ (binaryExponent x - 52) :=
  zpow_pos (by norm_num) _

theorem abs_roundDouble_sub_le (x : ℚ) :
    |roundDouble x - x| ≤ 2 ^ (binaryExponent x - 52) / 2 := by
  have hu := ulp_pos x
  have h := abs_roundHalfEven_sub_le (x / 2 ^ (binaryExponent x - 52))
  have hx : roundDouble x - x
      = ((roundHalfEven (x / 2 ^ (binaryExponent x - 52)) : ℚ) - x / 2 ^ (binaryExponent x - 52))
        * 2 ^ (binaryExponent x - 52) := by
    unfold roundDouble
    field_simp
  rw [hx, abs_mul, abs_of_pos hu]
  calc |(roundHalfEven (x / 2 ^ (binaryExponent x - 52)) : ℚ) - x / 2 ^ (binaryExponent x - 52)|
        * 2 ^ (binaryExponent x - 52)
      ≤ 1 / 2 * 2 ^ (binaryExponent x - 52) := mul_le_mul_of_nonneg_right h hu.le
    _ = 2 ^ (binaryExponent x - 52) / 2 := by ring

theorem binaryExponent_of_one_le (x : ℚ) (hx : 1 ≤ x) :
    binaryExponent x = Int.log 2 x ∧ 0 ≤ Int.log 2 x ∧ (2 : ℚ) ^ Int.log 2 x ≤ x := by
  have hpos : 0 < x := lt_of_lt_of_le zero_lt_one hx
  have hlog : 0 ≤ Int.log 2 x := by
    rw [Int.log_of_one_le_right 2 hx]
    exact Int.natCast_nonneg _
  refine ⟨?_, hlog, ?_⟩
  · unfold binaryExponent
    rw [abs_of_pos hpos]
    exact max_eq_left (le_trans (by norm_num) hlog)
  · have := Int.zpow_log_le_self (b := 2) (r := x) (by norm_num) hpos
    simpa using this

theorem two_zpow_split (e : ℤ) :
    (2 : ℚ) ^ e = 4503599627370496 * 2 ^ (e - 52) := by
  have h : (2 : ℚ) ^ e = 2 ^ (52 : ℤ) * 2 ^ (e - 52) := by
    rw [← zpow_add₀ (by norm_num : (2 : ℚ) ≠ 0)]
    congr 1
    ring
  rw [h]
  norm_num

theorem two_pow_log_le_roundDouble (x : ℚ) (hx : 1 ≤ x) :
    (2 : ℚ) ^ Int.log 2 x ≤ roundDouble x := by
  obtain ⟨he, -, hle⟩ := binaryExponent_of_one_le x hx
  have hu : (0 : ℚ) < 2 ^ (Int.log 2 x - 52) := zpow_pos (by norm_num) _
  have hq : ((4503599627370496 : ℤ) : ℚ) ≤ x / 2 ^ (Int.log 2 x - 52) := by
    rw [le_div_iff₀ hu]
    push_cast
    rw [← two_zpow_split]
    exact hle
  have hr := le_roundHalfEven_of_le _ _ hq
  have hr' : (4503599627370496 : ℚ) ≤ (roundHalfEven (x / 2 ^ (Int.log 2 x - 52)) : ℚ) := by
    exact_mod_cast hr
  unfold roundDouble
  rw [he, two_zpow_split (Int.log 2 x)]
  exact mul_le_mul_of_nonneg_right hr' hu.le

theorem one_le_roundDouble (x : ℚ) (hx : 1 ≤ x) : 1 ≤ roundDouble x := by
  obtain ⟨-, hlog, -⟩ := binaryExponent_of_one_le x hx
  refine le_trans ?_ (two_pow_log_le_roundDouble x hx)
  exact one_le_zpow₀ (by norm_num) hlog

theorem roundDouble_intCast (k : ℤ) (h1 : 1 ≤ k) (h2 : k < 9007199254740992) :
    roundDouble (k : ℚ) = k := by
  have hx : (1 : ℚ) ≤ k := by exact_mod_cast h1
  obtain ⟨he, hlog, hle⟩ := binaryExponent_of_one_le (k : ℚ) hx
  have hlt : Int.log 2 (k : ℚ) < 53 := by
    have hk : (k : ℚ) < 2 ^ (53 : ℤ) := by
      have : (k : ℚ) < 9007199254740992 := by exact_mod_cast h2
      norm_num
      exact this
    have := lt_of_le_of_lt hle hk
    exact (zpow_lt_zpow_iff_right₀ (by norm_num : (1 : ℚ) < 2)).mp this
  obtain ⟨n, hn⟩ : ∃ n : ℕ, (n : ℤ) = 52 - Int.log 2 (k : ℚ) :=
    ⟨(52 - Int.log 2 (k : ℚ)).toNat, Int.toNat_of_nonneg (by omega)⟩
  have hexp : Int.log 2 (k : ℚ) - 52 = -(n : ℤ) := by omega
  have hu : (2 : ℚ) ^ (Int.log 2 (k : ℚ) - 52) = ((2 : ℚ) ^ n)⁻¹ := by
    rw [hexp, zpow_neg, zpow_natCast]
  have hpos : (0 : ℚ) < 2 ^ n := pow_pos (by norm_num) n
  unfold roundDouble
  rw [he, hu]
  have hq : (k : ℚ) / ((2 : ℚ) ^ n)⁻¹ = ((k * 2 ^ n : ℤ) : ℚ) := by
    push_cast
    field_simp
  rw [hq, roundHalfEven_intCast]
  push_cast
  field_simp

theorem floor_roundDouble_div (s d : ℤ) (hd : 0 < d) (hsd : d ≤ s)
    (hs : s < 9007199254740992) :
    Int.floor (roundDouble ((s : ℚ) / d)) = Int.floor ((s : ℚ) / d) := by
  have hdq : (0 : ℚ) < d := by exact_mod_cast hd
  have hsq : (s : ℚ) < 9007199254740992 := by exact_mod_cast hs
  have hx : (1 : ℚ) ≤ (s : ℚ) / d := by
    rw [le_div_iff₀ hdq]
    simpa using (by exact_mod_cast hsd : (d : ℚ) ≤ s)
  have hk1 := Int.floor_le ((s : ℚ) / d)
  have hk2 := Int.lt_floor_add_one ((s : ℚ) / d)
  have hkpos : 1 ≤ Int.floor ((s : ℚ) / d) := Int.le_floor.mpr (by simpa using hx)
  rw [Int.floor_eq_iff]
  by_cases hint : ((Int.floor ((s : ℚ) / d) : ℤ) : ℚ) = (s : ℚ) / d
  · have hklt : Int.floor ((s : ℚ) / d) < 9007199254740992 := by
      have h1 : ((Int.floor ((s : ℚ) / d) : ℤ) : ℚ) ≤ s := by
        rw [hint, div_le_iff₀ hdq]
        have : (1 : ℚ) ≤ d := by exact_mod_cast hd
        nlinarith [show (0 : ℚ) ≤ s from le_trans (le_of_lt hdq) (by exact_mod_cast hsd)]
      have h2 : ((Int.floor ((s : ℚ) / d) : ℤ) : ℚ) < 9007199254740992 := lt_of_le_of_lt h1 hsq
      exact_mod_cast h2
    have hr : roundDouble ((Int.floor ((s : ℚ) / d) : ℤ) : ℚ) = Int.floor ((s : ℚ) / d) :=
      roundDouble_intCast _ hkpos hklt
    rw [hint] at hr
    rw [hr]
    exact ⟨hk1, hk2⟩
  · have hlt : ((Int.floor ((s : ℚ) / d) : ℤ) : ℚ) < (s : ℚ) / d := lt_of_le_of_ne hk1 hint
    -- the quotient is at least `1/d` away from the integers around it
    have hlow : ((Int.floor ((s : ℚ) / d) : ℤ) : ℚ) + 1 / d ≤ (s : ℚ) / d := by
      have h1 : Int.floor ((s : ℚ) / d) * d < s := by
        have := (lt_div_iff₀ hdq).mp hlt
        exact_mod_cast this
      have h2 : ((Int.floor ((s : ℚ) / d) * d + 1 : ℤ) : ℚ) ≤ s := by exact_mod_cast h1
      rw [le_div_iff₀ hdq, add_mul, one_div, inv_mul_cancel₀ hdq.ne']
      push_cast at h2
      exact h2
    have hhigh : (s : ℚ) / d + 1 / d ≤ ((Int.floor ((s : ℚ) / d) : ℤ) : ℚ) + 1 := by
      have h1 : s < (Int.floor ((s : ℚ) / d) + 1) * d := by
        have := (div_lt_iff₀ hdq).mp hk2
        exact_mod_cast this
      have h2 : ((s + 1 : ℤ) : ℚ) ≤ ((Int.floor ((s : ℚ) / d) + 1) * d : ℤ) := by
        exact_mod_cast h1
      rw [← add_div, div_le_iff₀ hdq]
      push_cast at h2
      exact h2
    -- the rounding error is below `1/d`
    obtain ⟨he, -, hle⟩ := binaryExponent_of_one_le _ hx
    have herr := abs_roundDouble_sub_le ((s : ℚ) / d)
    rw [he] at herr
    have hu : (0 : ℚ) < 2 ^ (Int.log 2 ((s : ℚ) / d) - 52) := zpow_pos (by norm_num) _
    have hbound : (2 : ℚ) ^ (Int.log 2 ((s : ℚ) / d) - 52) / 2 < 1 / d := by
      rw [two_zpow_split] at hle
      have hxs : (s : ℚ) / d < 9007199254740992 / d := div_lt_div_of_pos_right hsq hdq
      have h3 : (2 : ℚ) ^ (Int.log 2 ((s : ℚ) / d) - 52) / 2
          ≤ ((s : ℚ) / d) / 9007199254740992 := by
        rw [le_div_iff₀ (by norm_num)]
        linarith
      have h4 : ((s : ℚ) / d) / 9007199254740992 < 1 / d := by
        rw [div_lt_iff₀ (by norm_num)]
        calc (s : ℚ) / d < 9007199254740992 / d := hxs
          _ = 1 / d * 9007199254740992 := by ring
      exact lt_of_le_of_lt h3 h4
    rw [abs_le] at herr
    constructor
    · linarith
    · linarith

theorem roundHalfEven_eq_of_abs_lt (x : ℚ) (n : ℤ) (h : |x - n| < 1 / 2) :
    roundHalfEven x = n := by
  have h1 := abs_roundHalfEven_sub_le x
  rw [abs_le] at h1
  rw [abs_lt] at h
  have hlt : ((roundHalfEven x : ℤ) : ℚ) < n + 1 := by linarith
  have hgt : (n : ℚ) - 1 < roundHalfEven x := by linarith
  have hlt' : roundHalfEven x < n + 1 := by exact_mod_cast hlt
  have hgt' : n - 1 < roundHalfEven x := by exact_mod_cast hgt
  omega

theorem roundDouble_eq_of (x : ℚ) (e m : ℤ) (hmin : -1022 ≤ e)
    (h1 : (2 : ℚ) ^ e ≤ |x|) (h2 : |x| < 2 ^ (e + 1))
    (hm : |x / 2 ^ (e - 52) - m| < 1 / 2) :
    roundDouble x = m * 2 ^ (e - 52) := by
  have hpos : 0 < |x| := lt_of_lt_of_le (zpow_pos (by norm_num) e) h1
  have hlog : Int.log 2 |x| = e := by
    apply le_antisymm
    · have := (Int.lt_zpow_iff_log_lt (b := 2) (by norm_num) hpos).mp
        (by simpa using h2 : |x| < ((2 : ℕ) : ℚ) ^ (e + 1))
      omega
    · exact (Int.zpow_le_iff_le_log (b := 2) (by norm_num) hpos).mp (by simpa using h1)
  have he : binaryExponent x = e := by
    unfold binaryExponent
    rw [hlog]
    exact max_eq_left hmin
  unfold roundDouble
  rw [he, roundHalfEven_eq_of_abs_lt _ m hm]

theorem roundDouble_now_example :
    roundDouble (1700000000002 / 1000) = 7130316800008389 / 4194304 := by
  rw [roundDouble_eq_of (1700000000002 / 1000) 30 7130316800008389 (by norm_num)
    (by norm_num [abs_of_pos]) (by norm_num [abs_of_pos]) (by norm_num [abs_lt])]
  norm_num

/-! ## `timeAgo` -/

/-- C9: with `s` the value of `seconds`, that is `Math.floor(now / 1000 - t)` as
the code computes it in binary64, `timeAgo` prints `s` seconds when `s < 60`,
`floor(s / 60)` minutes, a number between 1 and 59, when `60 ≤ s < 3600`, and
`Math.floor(s / 3600)` hours, a number that is at least 1, when `3600 ≤ s`; the
hours are the exact `floor(s / 3600)` for every `s` below `2 ^ 53`. -/
theorem timeAgo_units (rt : Runtime) (now : Nat) (t : ℚ) (s : ℤ)
    (hs : s = Int.floor (roundDouble (roundDouble ((now : ℚ) / 1000) - t))) :
    elapsedSeconds rt now (.num t) = some (s : ℚ) ∧
    (s < 60 → timeAgo rt now (.num t) = rt.numToString (s : ℚ) ++ "s ago") ∧
    (60 ≤ s → s < 3600 →
      timeAgo rt now (.num t)
          = rt.numToString ((Int.floor ((s : ℚ) / 60) : ℤ) : ℚ) ++ "m ago" ∧
        1 ≤ Int.floor ((s : ℚ) / 60) ∧ Int.floor ((s : ℚ) / 60) ≤ 59) ∧
    (3600 ≤ s →
      timeAgo rt now (.num t)
          = rt.numToString ((Int.floor (roundDouble ((s : ℚ) / 3600)) : ℤ) : ℚ) ++ "h ago" ∧
        1 ≤ Int.floor (roundDouble ((s : ℚ) / 3600)) ∧
        (s < 9007199254740992 →
          Int.floor (roundDouble ((s : ℚ) / 3600)) = Int.floor ((s : ℚ) / 3600))) := by
  have hsec : elapsedSeconds rt now (.num t) = some (s : ℚ) := by
    rw [elapsedSeconds_num, hs]
  have h60q : ((s : ℚ) < 60) ↔ s < 60 := by exact_mod_cast Iff.rfl
  have h3600q : ((s : ℚ) < 3600) ↔ s < 3600 := by exact_mod_cast Iff.rfl
  refine ⟨hsec, ?_, ?_, ?_⟩
  · intro h
    simp [timeAgo, hsec, numLt_some, h60q.mpr h, numberToString]
  · intro h60 h3600
    have hfl : Int.floor (roundDouble ((s : ℚ) / 60)) = Int.floor ((s : ℚ) / 60) := by
      have := floor_roundDouble_div s 60 (by norm_num) h60 (by omega)
      simpa using this
    refine ⟨?_, ?_, ?_⟩
    · simp [timeAgo, hsec, numLt_some, h60q, h3600q, not_lt.mpr h60, h3600, numberToString,
        mathFloor, numDiv, hfl]
    · rw [Int.le_floor]
      rw [le_div_iff₀ (by norm_num)]
      exact_mod_cast h60
    · have : Int.floor ((s : ℚ) / 60) < 60 := by
        rw [Int.floor_lt, div_lt_iff₀ (by norm_num)]
        exact_mod_cast h3600
      omega
  · intro h3600
    have h60 : 60 ≤ s := le_trans (by norm_num) h3600
    have hx : (1 : ℚ) ≤ (s : ℚ) / 3600 := by
      rw [le_div_iff₀ (by norm_num)]
      exact_mod_cast h3600
    refine ⟨?_, ?_, ?_⟩
    · simp [timeAgo, hsec, numLt_some, h60q, h3600q, not_lt.mpr h60, not_lt.mpr h3600,
        numberToString, mathFloor, numDiv]
    · rw [Int.le_floor]
      simpa using one_le_roundDouble _ hx
    · intro hbig
      have := floor_roundDouble_div s 3600 (by norm_num) h3600 hbig
      simpa using this

theorem timeAgo_units_witness :
    elapsedSeconds exampleRuntime 1700000000002 (.num (7130316548350149 / 4194304))
        = some 60 ∧
      timeAgo exampleRuntime 1700000000002 (.num (7130316548350149 / 4194304)) = "1m ago" := by
  have h := timeAgo_units exampleRuntime 1700000000002 (7130316548350149 / 4194304) 60
    (by
      have h1 : ((1700000000002 : ℕ) : ℚ) / 1000 = 1700000000002 / 1000 := by norm_num
      have h2 : (7130316800008389 / 4194304 - 7130316548350149 / 4194304 : ℚ)
          = ((60 : ℤ) : ℚ) := by norm_num
      rw [h1, roundDouble_now_example, h2, roundDouble_intCast 60 (by norm_num) (by norm_num),
        Int.floor_intCast])
  refine ⟨by simpa using h.1, ?_⟩
  rw [(h.2.2.1 (by norm_num) (by norm_num)).1]
  have hfloor : Int.floor (((60 : ℤ) : ℚ) / 60) = 1 := by norm_num
  rw [hfloor]
  rfl

/-! ## Properties of the rendered tree -/

theorem traverse_ok {α β : Type} (f : α → Except JSError β) (l : List α)
    (h : ∀ a ∈ l, ∃ b, f a = .ok b) :
    ∃ bs, traverse f l = .ok bs ∧ bs.length = l.length ∧
      ∀ (i : Nat) (hi : i < l.length) (hb : i < bs.length), f (l[i]) = .ok (bs[i]) := by
  induction l with
  | nil => exact ⟨[], rfl, rfl, fun i hi => absurd hi (Nat.not_lt_zero i)⟩
  | cons a rest ih =>
    obtain ⟨b, hb⟩ := h a (List.mem_cons_self a rest)
    obtain ⟨bs, hbs, hlen, hget⟩ := ih (fun x hx => h x (List.mem_cons_of_mem a hx))
    refine ⟨b :: bs, ?_, ?_, ?_⟩
    · simp [traverse, hb, hbs]
    · simp [hlen]
    · intro i hi hb'
      cases i with
      | zero => simpa using hb
      | succ j =>
        simp only [List.getElem_cons_succ]
        exact hget j (by simpa using hi) (by simpa using hb')

theorem getProp_ok (v : JSVal) (key : String) (h : nullish v = false) :
    ∃ x, getProp v key = .ok x := by
  cases v <;> simp [nullish] at h <;> simp [getProp]

theorem getIndex_ok (v : JSVal) (i : Nat) (h : nullish v = false) :
    ∃ x, getIndex v i = .ok x := by
  cases v <;> simp [nullish] at h <;> simp [getIndex]

theorem nullish_of_getProp {v x : JSVal} {key : String} (h : getProp v key = .ok x) :
    nullish v = false := by
  cases v <;> simp [getProp] at h <;> rfl

theorem hostCard_of_latest (rt : Runtime) (host : String) (data latest : JSVal)
    (h : getProp data "latest" = .ok latest) :
    ∃ card, hostCard rt host data = .ok card ∧ card.key = host ∧
      card.statusText = (if truthy latest then "Online" else "Offline") ∧
      card.latencyText = (if truthy latest then toStr rt latest ++ "ms" else "N/A") := by
  obtain ⟨ema, hema⟩ := getProp_ok data "ema" (nullish_of_getProp h)
  obtain ⟨ht, hht⟩ := getProp_ok data "has_traceroute" (nullish_of_getProp h)
  simp [hostCard, h, hema, hht, bind, Except.bind, pure, Except.pure]

theorem hostCards_ok (rt : Runtime) (props : List (String × JSVal))
    (hshape : ∀ e ∈ props, nullish e.2 = false) :
    ∃ cards, hostCards rt (.obj props) = .ok cards ∧ cards.length = props.length ∧
      ∀ (i : Nat) (hi : i < props.length) (hc : i < cards.length),
        hostCard rt (props[i]).1 (props[i]).2 = .ok (cards[i]) := by
  have hall : ∀ e ∈ props, ∃ c, (fun entry : String × JSVal =>
      hostCard rt entry.1 entry.2) e = .ok c := by
    intro e he
    obtain ⟨latest, hl⟩ := getProp_ok e.2 "latest" (hshape e he)
    obtain ⟨card, hcard, -⟩ := hostCard_of_latest rt e.1 e.2 latest hl
    exact ⟨card, hcard⟩
  obtain ⟨cards, hcards, hlen, hget⟩ := traverse_ok _ props hall
  refine ⟨cards, ?_, hlen, hget⟩
  simp [hostCards, objectEntries, bind, Except.bind, hcards]

theorem onlineHosts_ok (props : List (String × JSVal))
    (hshape : ∀ e ∈ props, nullish e.2 = false) :
    ∃ flags, traverse isOnline (props.map Prod.snd) = .ok flags ∧
      flags.length = props.length ∧
      onlineHosts (.obj props) = .ok (flags.filter id).length ∧
      ∀ (i : Nat) (hi : i < props.length) (hf : i < flags.length),
        isOnline (props[i]).2 = .ok (flags[i]) := by
  have hall : ∀ m ∈ props.map Prod.snd, ∃ b, isOnline m = .ok b := by
    intro m hm
    obtain ⟨e, he, rfl⟩ := List.mem_map.mp hm
    obtain ⟨latest, hl⟩ := getProp_ok e.2 "latest" (hshape e he)
    exact ⟨truthy latest, by simp [isOnline, hl, Except.map]⟩
  obtain ⟨flags, hflags, hlen, hget⟩ := traverse_ok isOnline (props.map Prod.snd) hall
  refine ⟨flags, hflags, by simpa using hlen, ?_, ?_⟩
  · simp [onlineHosts, objectValues, objectEntries, Except.map, bind, Except.bind, hflags,
      pure, Except.pure]
  · intro i hi hf
    have := hget i (by simpa using hi) hf
    simpa using this

/-- C1: when the metrics state is an object whose entries are not `null`, every
entry is rendered as one card, and the card of an entry whose `latest` is `null`
or `undefined` shows the status "Offline" and the latency "N/A". -/
theorem offline_when_latest_absent (rt : Runtime) (props : List (String × JSVal))
    (hshape : ∀ e ∈ props, nullish e.2 = false) :
    ∃ cards, hostCards rt (.obj props) = .ok cards ∧ cards.length = props.length ∧
      ∀ (i : Nat) (hi : i < props.length) (hc : i < cards.length),
        (getProp (props[i]).2 "latest" = .ok .null ∨
          getProp (props[i]).2 "latest" = .ok .undefined) →
        (cards[i]).key = (props[i]).1 ∧ (cards[i]).statusText = "Offline" ∧
          (cards[i]).latencyText = "N/A" := by
  obtain ⟨cards, hcards, hlen, hget⟩ := hostCards_ok rt props hshape
  refine ⟨cards, hcards, hlen, ?_⟩
  intro i hi hc habsent
  have hcard := hget i hi hc
  rcases habsent with h | h
  · obtain ⟨card, hc1, hkey, hstatus, htext⟩ := hostCard_of_latest rt (props[i]).1 (props[i]).2 _ h
    rw [hcard] at hc1
    cases hc1
    exact ⟨hkey, by simpa [truthy] using hstatus, by simpa [truthy] using htext⟩
  · obtain ⟨card, hc1, hkey, hstatus, htext⟩ := hostCard_of_latest rt (props[i]).1 (props[i]).2 _ h
    rw [hcard] at hc1
    cases hc1
    exact ⟨hkey, by simpa [truthy] using hstatus, by simpa [truthy] using htext⟩

theorem offline_when_latest_absent_witness :
    ∃ cards,
      hostCards exampleRuntime
          (.obj [("10.0.0.7", .obj [("latest", .null), ("ema", .num 31)]),
                 ("example.org", .obj [("ema", .num 12)])]) = .ok cards ∧
        cards.length = 2 ∧
        ∀ (i : Nat) (hc : i < cards.length),
          (cards[i]).statusText = "Offline" ∧ (cards[i]).latencyText = "N/A" := by
  obtain ⟨cards, hcards, hlen, hall⟩ :=
    offline_when_latest_absent exampleRuntime
      [("10.0.0.7", .obj [("latest", .null), ("ema", .num 31)]),
       ("example.org", .obj [("ema", .num 12)])]
      (by
        intro e he
        simp only [List.mem_cons, List.mem_singleton, List.not_mem_nil, or_false] at he
        rcases he with rfl | rfl <;> rfl)
  refine ⟨cards, hcards, hlen, ?_⟩
  intro i hc
  have hi : i < 2 := by
    have h2 := hlen
    simp only [List.length_cons, List.length_nil] at h2
    omega
  refine (hall i hi hc ?_).2
  match i, hi with
  | 0, _ => exact Or.inl (by simp [getProp, lookupProp])
  | 1, _ => exact Or.inr (by simp [getProp, lookupProp])

/-- C4, as stated, fails: an entry whose `latest` is the number 0 is rendered
with the status "Offline" and the latency "N/A", and is not counted among the
online hosts. -/
theorem zero_latency_shown_offline :
    getProp (.obj [("latest", .num 0), ("ema", .num 0), ("has_traceroute", .bool false)]) "latest"
        = .ok (.num 0) ∧
      (hostCard exampleRuntime "localhost"
          (.obj [("latest", .num 0), ("ema", .num 0), ("has_traceroute", .bool false)])).map
          (fun card => (card.statusText, card.latencyText)) = .ok ("Offline", "N/A") ∧
      onlineHosts
          (.obj [("localhost",
            .obj [("latest", .num 0), ("ema", .num 0), ("has_traceroute", .bool false)])])
        = .ok 0 := by
  refine ⟨?_, ?_, ?_⟩
  · simp [getProp, lookupProp]
  · simp [hostCard, getProp, lookupProp, truthy, bind, Except.bind, pure, Except.pure, Except.map]
  · simp [onlineHosts, objectValues, objectEntries, traverse, isOnline, getProp, lookupProp,
      truthy, bind, Except.bind, pure, Except.pure, Except.map]

/-- C4, amended: when the metrics state is an object whose entries are not
`null`, the card of an entry whose `latest` is a non-zero number `q` shows the
status "Online" and the latency text of `q` followed by "ms", and the filter of
the "Online Hosts" count keeps that entry; the count is the number of entries
kept. -/
theorem online_when_latest_nonzero (rt : Runtime) (props : List (String × JSVal))
    (hshape : ∀ e ∈ props, nullish e.2 = false) :
    ∃ cards flags, hostCards rt (.obj props) = .ok cards ∧ cards.length = props.length ∧
      traverse isOnline (props.map Prod.snd) = .ok flags ∧ flags.length = props.length ∧
      onlineHosts (.obj props) = .ok (flags.filter id).length ∧
      ∀ (i : Nat) (hi : i < props.length) (hc : i < cards.length) (hf : i < flags.length)
        (q : ℚ), getProp (props[i]).2 "latest" = .ok (.num q) → q ≠ 0 →
        (cards[i]).key = (props[i]).1 ∧ (cards[i]).statusText = "Online" ∧
          (cards[i]).latencyText = rt.numToString q ++ "ms" ∧ flags[i] = true := by
  obtain ⟨cards, hcards, hlen, hget⟩ := hostCards_ok rt props hshape
  obtain ⟨flags, hflags, hflen, hcount, hfget⟩ := onlineHosts_ok props hshape
  refine ⟨cards, flags, hcards, hlen, hflags, hflen, hcount, ?_⟩
  intro i hi hc hf q hq hq0
  obtain ⟨card, hc1, hkey, hstatus, htext⟩ :=
    hostCard_of_latest rt (props[i]).1 (props[i]).2 _ hq
  rw [hget i hi hc] at hc1
  cases hc1
  have hflag := hfget i hi hf
  simp only [isOnline, hq, Except.map, truthy_num] at hflag
  refine ⟨hkey, by simpa [truthy, hq0] using hstatus, by simpa [truthy, hq0, toStr] using htext, ?_⟩
  have := Except.ok.inj hflag
  simpa [hq0] using this.symm

theorem online_when_latest_nonzero_witness :
    ∃ cards,
      hostCards exampleRuntime (.obj [("8.8.8.8", .obj [("latest", .num 20), ("ema", .num 21)])])
          = .ok cards ∧
        cards.length = 1 ∧
        onlineHosts (.obj [("8.8.8.8", .obj [("latest", .num 20), ("ema", .num 21)])]) = .ok 1 ∧
        ∀ (hc : 0 < cards.length),
          (cards[0]).statusText = "Online" ∧
            (cards[0]).latencyText = exampleRuntime.numToString 20 ++ "ms" := by
  obtain ⟨cards, flags, hcards, hlen, -, hflen, hcount, hall⟩ :=
    online_when_latest_nonzero exampleRuntime
      [("8.8.8.8", .obj [("latest", .num 20), ("ema", .num 21)])]
      (by
        intro e he
        simp only [List.mem_singleton] at he
        subst he
        rfl)
  have hc : 0 < cards.length := by
    have h1 := hlen
    simp only [List.length_cons, List.length_nil] at h1
    omega
  have hf : 0 < flags.length := by
    have h1 := hflen
    simp only [List.length_cons, List.length_nil] at h1
    omega
  have h0 := hall 0 Nat.zero_lt_one hc hf 20 (by simp [getProp, lookupProp]) (by norm_num)
  refine ⟨cards, hcards, hlen, ?_, fun _ => ⟨h0.2.1, h0.2.2.1⟩⟩
  rw [hcount]
  match flags, hflen, hf, h0.2.2.2 with
  | [b], _, _, hb =>
    simp only [List.getElem_cons_zero] at hb
    subst hb
    rfl

theorem alertRow_ok (rt : Runtime) (now : Nat) (alert : JSVal) (idx : Nat)
    (h : nullish alert = false) : ∃ row, alertRow rt now alert idx = .ok row := by
  obtain ⟨k, hk⟩ := getIndex_ok alert 2 h
  obtain ⟨m, hm⟩ := getIndex_ok alert 1 h
  obtain ⟨t, ht⟩ := getIndex_ok alert 0 h
  simp [alertRow, hk, hm, ht, bind, Except.bind, pure, Except.pure]

theorem alertRowsFrom_ok (rt : Runtime) (now : Nat) (l : List JSVal)
    (h : ∀ a ∈ l, nullish a = false) (idx : Nat) :
    ∃ rows, alertRowsFrom rt now idx l = .ok rows ∧ rows.length = l.length ∧
      ∀ (i : Nat) (hi : i < l.length) (hr : i < rows.length),
        alertRow rt now (l[i]) (idx + i) = .ok (rows[i]) := by
  induction l generalizing idx with
  | nil => exact ⟨[], rfl, rfl, fun i hi => absurd hi (Nat.not_lt_zero i)⟩
  | cons a rest ih =>
    obtain ⟨row, hrow⟩ := alertRow_ok rt now a idx (h a (List.mem_cons_self a rest))
    obtain ⟨rows, hrows, hlen, hget⟩ :=
      ih (fun x hx => h x (List.mem_cons_of_mem a hx)) (idx + 1)
    refine ⟨row :: rows, ?_, ?_, ?_⟩
    · simp [alertRowsFrom, hrow, hrows]
    · simp [hlen]
    · intro i hi hr
      cases i with
      | zero => simpa using hrow
      | succ j =>
        simp only [List.getElem_cons_succ]
        have := hget j (by simpa using hi) (by simpa using hr)
        rw [show idx + (j + 1) = idx + 1 + j by omega]
        exact this

/-- C3: for an alerts array whose elements are not `null`, the feed shows one
row per alert, the rows are those of the reversed array in order (row `i` is
built from element `length - 1 - i` and has key `i`), and the `alerts` cell
holds the same array afterwards. -/
theorem alert_feed_reversed (rt : Runtime) (now : Nat) (xs : List JSVal)
    (hshape : ∀ a ∈ xs, nullish a = false) :
    ∃ feed, alertFeed rt now (.arr xs) = .ok (feed, .arr xs) ∧
      alertRowsFrom rt now 0 xs.reverse = .ok feed.shown ∧
      feed.shown.length = xs.length ∧
      ∀ (i : Nat) (hi : i < xs.length) (hr : i < feed.shown.length),
        alertRow rt now (xs[xs.length - 1 - i]) i = .ok (feed.shown[i]) := by
  obtain ⟨rows, hrows, hlen, hget⟩ :=
    alertRowsFrom_ok rt now xs.reverse (fun a ha => hshape a (List.mem_reverse.mp ha)) 0
  have hlen' : rows.length = xs.length := by simpa using hlen
  have hrow : ∀ (i : Nat) (hi : i < xs.length) (hr : i < rows.length),
      alertRow rt now (xs[xs.length - 1 - i]) i = .ok (rows[i]) := by
    intro i hi hr
    have := hget i (by simpa using hi) hr
    simpa [List.getElem_reverse] using this
  by_cases hpos : xs.length > 0
  · refine ⟨.rows rows, ?_, hrows, hlen', hrow⟩
    simp [alertFeed, hpos, arraySlice, arrayReverse, hrows]
  · have hnil : xs = [] := List.length_eq_zero.mp (by omega)
    subst hnil
    refine ⟨.allHealthy, ?_, ?_, ?_, ?_⟩
    · simp [alertFeed]
    · simp [AlertFeed.shown, alertRowsFrom]
    · simp [AlertFeed.shown]
    · intro i hi
      exact absurd hi (Nat.not_lt_zero i)

theorem alert_feed_reversed_witness :
    ∃ feed,
      alertFeed exampleRuntime 1000000
          (.arr [.arr [.num 940, .str "first", .str "info"],
                 .arr [.num 990, .str "second", .str "anomaly"]])
        = .ok (feed, .arr [.arr [.num 940, .str "first", .str "info"],
                           .arr [.num 990, .str "second", .str "anomaly"]]) ∧
      feed.shown.length = 2 ∧
      feed.shown.map (fun row => (row.key, row.message))
        = [(0, .str "second"), (1, .str "first")] := by
  obtain ⟨feed, hfeed, hrows, hlen, -⟩ :=
    alert_feed_reversed exampleRuntime 1000000
      [.arr [.num 940, .str "first", .str "info"], .arr [.num 990, .str "second", .str "anomaly"]]
      (by
        intro a ha
        simp only [List.mem_cons, List.mem_singleton, List.not_mem_nil, or_false] at ha
        rcases ha with rfl | rfl <;> rfl)
  refine ⟨feed, hfeed, hlen, ?_⟩
  simp only [List.reverse_cons, List.reverse_nil, List.nil_append, List.singleton_append,
    alertRowsFrom, alertRow, getIndex, List.getD_cons_succ, List.getD_cons_zero, bind,
    Except.bind, pure, Except.pure] at hrows
  rw [← Except.ok.inj hrows]
  rfl

/-! ## Properties of the handlers -/

theorem fetchMetrics_of_failed (env : Env) (w : World)
    (h : requestFailed (env.fetch (.get (API_BASE ++ "/metrics"))) = true) :
    fetchMetrics env w = fetchMetricsCatch (w.send (.get (API_BASE ++ "/metrics"))) := by
  cases hr : env.fetch (.get (API_BASE ++ "/metrics")) with
  | rejected => simp [fetchMetrics, hr]
  | response ok json =>
    rw [hr] at h
    cases ok with
    | false => simp [fetchMetrics, hr]
    | true =>
      cases json with
      | none => simp [fetchMetrics, hr]
      | some data => simp [requestFailed] at h

theorem fetchMetrics_of_nullish (env : Env) (w : World) (data : JSVal)
    (hr : env.fetch (.get (API_BASE ++ "/metrics")) = .response true (some data))
    (h : nullish data = true) :
    fetchMetrics env w = fetchMetricsCatch (w.send (.get (API_BASE ++ "/metrics"))) := by
  cases data <;> simp [nullish] at h <;> simp [fetchMetrics, hr, getProp]

theorem fetchMetrics_of_body (env : Env) (w : World) (data m a : JSVal)
    (hr : env.fetch (.get (API_BASE ++ "/metrics")) = .response true (some data))
    (hm : getProp data "metrics" = .ok m) (ha : getProp data "alerts" = .ok a) :
    fetchMetrics env w =
      { app := { w.app with
          metrics := jsOr m (.obj [])
          alerts := jsOr a (.arr [])
          lastUpdate := env.now
          loading := false
          error := .null }
        sent := w.sent ++ [.get (API_BASE ++ "/metrics")] } := by
  unfold fetchMetrics
  simp [hr, hm, ha, World.send]

theorem fetchMetrics_frame (env : Env) (w : World) :
    (fetchMetrics env w).app.traceroute = w.app.traceroute ∧
      (fetchMetrics env w).app.selectedHost = w.app.selectedHost ∧
      (fetchMetrics env w).app.newHost = w.app.newHost ∧
      (fetchMetrics env w).app.loading = false ∧
      (fetchMetrics env w).sent = w.sent ++ [.get (API_BASE ++ "/metrics")] := by
  unfold fetchMetrics
  dsimp only
  split
  · simp [fetchMetricsCatch, World.send]
  · split
    · simp [fetchMetricsCatch, World.send]
    · split
      · simp [fetchMetricsCatch, World.send]
      · split
        · simp [fetchMetricsCatch, World.send]
        · split <;> simp [fetchMetricsCatch, World.send]

theorem requestFailed_iff (r : FetchResult) :
    requestFailed r = true ↔
      (r = .rejected ∨ (∃ json, r = .response false json) ∨ r = .response true none) := by
  cases r with
  | rejected => simp [requestFailed]
  | response ok json => cases ok <;> cases json <;> simp [requestFailed]

theorem fetchMetrics_error_cases (env : Env) (w : World) :
    ((requestFailed (env.fetch (.get (API_BASE ++ "/metrics"))) = true ∨
          ∃ data, env.fetch (.get (API_BASE ++ "/metrics")) = .response true (some data) ∧
            nullish data = true) ∧
        (fetchMetrics env w).app.error
          = .str "Failed to connect to backend. Make sure Flask server is running.") ∨
      (¬(requestFailed (env.fetch (.get (API_BASE ++ "/metrics"))) = true ∨
          ∃ data, env.fetch (.get (API_BASE ++ "/metrics")) = .response true (some data) ∧
            nullish data = true) ∧
        (fetchMetrics env w).app.error = .null) := by
  cases hf : requestFailed (env.fetch (.get (API_BASE ++ "/metrics"))) with
  | true =>
    left
    refine ⟨Or.inl rfl, ?_⟩
    rw [fetchMetrics_of_failed env w hf]
    rfl
  | false =>
    cases hr : env.fetch (.get (API_BASE ++ "/metrics")) with
    | rejected => rw [hr] at hf; simp [requestFailed] at hf
    | response ok json =>
      rw [hr] at hf
      cases ok with
      | false => simp [requestFailed] at hf
      | true =>
        cases json with
        | none => simp [requestFailed] at hf
        | some data =>
          cases hn : nullish data with
          | true =>
            left
            refine ⟨Or.inr ⟨data, rfl, hn⟩, ?_⟩
            rw [fetchMetrics_of_nullish env w data hr hn]
            rfl
          | false =>
            right
            obtain ⟨m, hm⟩ := getProp_ok data "metrics" hn
            obtain ⟨a, ha⟩ := getProp_ok data "alerts" hn
            refine ⟨?_, ?_⟩
            · rintro (h | ⟨data', hd, hn'⟩)
              · cases h
              · simp only [FetchResult.response.injEq, Option.some.injEq, true_and] at hd
                rw [hd, hn'] at hn
                cases hn
            · rw [fetchMetrics_of_body env w data m a hr hm ha]

/-- C2, as stated, fails: at an ok response whose body parses to `null` the
fetch did not reject, the response was ok and the body was parsed, yet reading
`data.metrics` throws inside the `try` block, `error` is set and the
connection-error screen is chosen. -/
theorem null_body_sets_error :
    requestFailed (.response true (some .null)) = false ∧
      (fetchMetrics { fetch := fun _ => .response true (some .null), now := 0 }
          { app := initialState 0, sent := [] }).app.error
        = .str "Failed to connect to backend. Make sure Flask server is running." ∧
      (fetchMetrics { fetch := fun _ => .response true (some .null), now := 0 }
          { app := initialState 0, sent := [] }).app.error ≠ .null ∧
      screen (fetchMetrics { fetch := fun _ => .response true (some .null), now := 0 }
          { app := initialState 0, sent := [] }).app
        = .connectionError
            (.str "Failed to connect to backend. Make sure Flask server is running.") := by
  have h := fetchMetrics_of_nullish
    { fetch := fun _ => .response true (some .null), now := 0 }
    { app := initialState 0, sent := [] } .null rfl rfl
  rw [h]
  refine ⟨rfl, rfl, ?_, ?_⟩
  · intro hnull
    cases hnull
  · simp [screen, fetchMetricsCatch, World.send, truthy]

/-- C2, amended: after `fetchMetrics`, `error` is non-null exactly when the
fetch rejected, the response was not ok, the body could not be parsed, or the
body parsed to `null`, and exactly then the connection-error screen is chosen;
every ok response with a parsed body other than `null` sets `error` to null and
`loading` to false, whatever the body holds. -/
theorem connection_error_iff_failed_or_null_body (env : Env) (w : World) :
    ((fetchMetrics env w).app.error ≠ .null ↔
        ((env.fetch (.get (API_BASE ++ "/metrics")) = .rejected ∨
            (∃ json, env.fetch (.get (API_BASE ++ "/metrics")) = .response false json) ∨
            env.fetch (.get (API_BASE ++ "/metrics")) = .response true none) ∨
          ∃ data, env.fetch (.get (API_BASE ++ "/metrics")) = .response true (some data) ∧
            nullish data = true)) ∧
      ((∃ message, screen (fetchMetrics env w).app = .connectionError message) ↔
        ((env.fetch (.get (API_BASE ++ "/metrics")) = .rejected ∨
            (∃ json, env.fetch (.get (API_BASE ++ "/metrics")) = .response false json) ∨
            env.fetch (.get (API_BASE ++ "/metrics")) = .response true none) ∨
          ∃ data, env.fetch (.get (API_BASE ++ "/metrics")) = .response true (some data) ∧
            nullish data = true)) ∧
      (∀ data, env.fetch (.get (API_BASE ++ "/metrics")) = .response true (some data) →
        nullish data = false →
        (fetchMetrics env w).app.error = .null ∧ (fetchMetrics env w).app.loading = false) := by
  have hload : (fetchMetrics env w).app.loading = false := (fetchMetrics_frame env w).2.2.2.1
  refine ⟨?_, ?_, ?_⟩
  · rw [← requestFailed_iff]
    rcases fetchMetrics_error_cases env w with ⟨hc, he⟩ | ⟨hc, he⟩
    · simp [hc, he]
    · simp [hc, he]
  · rw [← requestFailed_iff]
    rcases fetchMetrics_error_cases env w with ⟨hc, he⟩ | ⟨hc, he⟩
    · simp [hc, screen, hload, he, truthy]
    · simp [hc, screen, hload, he, truthy]
  · intro data hr hn
    obtain ⟨m, hm⟩ := getProp_ok data "metrics" hn
    obtain ⟨a, ha⟩ := getProp_ok data "alerts" hn
    rw [fetchMetrics_of_body env w data m a hr hm ha]
    exact ⟨rfl, rfl⟩

theorem connection_error_iff_failed_or_null_body_witness :
    (fetchMetrics
        { fetch := fun _ => .response true (some (.obj
            [("metrics", .obj [("10.0.0.7", .obj [("latest", .null), ("ema", .num 31)]),
                               ("10.0.0.8", .obj [("latest", .null), ("ema", .num 9)])]),
             ("alerts", .arr [])]))
          now := 5000 }
        { app := initialState 0, sent := [] }).app.error = .null ∧
      (fetchMetrics
        { fetch := fun _ => .response true (some (.obj
            [("metrics", .obj [("10.0.0.7", .obj [("latest", .null), ("ema", .num 31)]),
                               ("10.0.0.8", .obj [("latest", .null), ("ema", .num 9)])]),
             ("alerts", .arr [])]))
          now := 5000 }
        { app := initialState 0, sent := [] }).app.loading = false :=
  (connection_error_iff_failed_or_null_body
    { fetch := fun _ => .response true (some (.obj
        [("metrics", .obj [("10.0.0.7", .obj [("latest", .null), ("ema", .num 31)]),
                           ("10.0.0.8", .obj [("latest", .null), ("ema", .num 9)])]),
         ("alerts", .arr [])]))
      now := 5000 }
    { app := initialState 0, sent := [] }).2.2 _ rfl rfl

theorem fetchTraceroute_cleared (w : World) :
    (clearTraceroute w).app.traceroute = .null ∧ (clearTraceroute w).app.selectedHost = .null :=
  ⟨rfl, rfl⟩

theorem fetchTraceroute_of_failed (env : Env) (host : String) (w : World)
    (h : requestFailed (env.fetch (.get (API_BASE ++ "/api/traceroute/" ++ host))) = true) :
    fetchTraceroute env host w
      = clearTraceroute (w.send (.get (API_BASE ++ "/api/traceroute/" ++ host))) := by
  cases hr : env.fetch (.get (API_BASE ++ "/api/traceroute/" ++ host)) with
  | rejected => simp [fetchTraceroute, hr]
  | response ok json =>
    rw [hr] at h
    cases ok with
    | false => simp [fetchTraceroute, hr]
    | true =>
      cases json with
      | none => simp [fetchTraceroute, hr]
      | some data => simp [requestFailed] at h

theorem fetchTraceroute_of_nullish (env : Env) (host : String) (w : World) (data : JSVal)
    (hr : env.fetch (.get (API_BASE ++ "/api/traceroute/" ++ host)) = .response true (some data))
    (h : nullish data = true) :
    fetchTraceroute env host w
      = clearTraceroute (w.send (.get (API_BASE ++ "/api/traceroute/" ++ host))) := by
  cases data <;> simp [nullish] at h <;> simp [fetchTraceroute, hr, getProp]

theorem fetchTraceroute_of_body (env : Env) (host : String) (w : World) (data e : JSVal)
    (hr : env.fetch (.get (API_BASE ++ "/api/traceroute/" ++ host)) = .response true (some data))
    (he : getProp data "error" = .ok e) :
    fetchTraceroute env host w =
      if truthy e then clearTraceroute (w.send (.get (API_BASE ++ "/api/traceroute/" ++ host)))
      else
        { app := { w.app with traceroute := data, selectedHost := .str host }
          sent := w.sent ++ [.get (API_BASE ++ "/api/traceroute/" ++ host)] } := by
  simp [fetchTraceroute, hr, he, World.send]

/-- C5, as stated, fails: a body that carries an `error` field holding the empty
string is taken for trace data; `traceroute` becomes that body and
`selectedHost` the host. -/
theorem empty_error_field_opens_panel :
    lookupProp "error" [("error", .str "")] = .str "" ∧
      (fetchTraceroute
          { fetch := fun _ => .response true (some (.obj [("error", .str "")])), now := 0 }
          "8.8.8.8" { app := initialState 0, sent := [] }).app.traceroute
        = .obj [("error", .str "")] ∧
      (fetchTraceroute
          { fetch := fun _ => .response true (some (.obj [("error", .str "")])), now := 0 }
          "8.8.8.8" { app := initialState 0, sent := [] }).app.traceroute ≠ .null ∧
      (fetchTraceroute
          { fetch := fun _ => .response true (some (.obj [("error", .str "")])), now := 0 }
          "8.8.8.8" { app := initialState 0, sent := [] }).app.selectedHost = .str "8.8.8.8" := by
  have h := fetchTraceroute_of_body
    { fetch := fun _ => .response true (some (.obj [("error", .str "")])), now := 0 }
    "8.8.8.8" { app := initialState 0, sent := [] } (.obj [("error", .str "")]) (.str "")
    rfl (by simp [getProp, lookupProp])
  simp only [truthy, ne_eq, not_true_eq_false, decide_False, Bool.false_eq_true, if_false] at h
  rw [h]
  refine ⟨by simp [lookupProp], rfl, ?_, rfl⟩
  intro hnull
  cases hnull

/-- C5, amended: `traceroute` and `selectedHost` are both null afterwards when
the request fails (the fetch rejects, the response is not ok, the body cannot be
read as JSON or is `null`) or the body carries a truthy `error` field; in every
other case, which includes a body whose `error` field is falsy, `traceroute` is
exactly the response body and `selectedHost` is exactly the host. -/
theorem traceroute_null_or_body (env : Env) (host : String) (w : World) :
    (requestFailed (env.fetch (.get (API_BASE ++ "/api/traceroute/" ++ host))) = true →
        (fetchTraceroute env host w).app.traceroute = .null ∧
          (fetchTraceroute env host w).app.selectedHost = .null) ∧
      (∀ data,
        env.fetch (.get (API_BASE ++ "/api/traceroute/" ++ host)) = .response true (some data) →
        nullish data = true →
        (fetchTraceroute env host w).app.traceroute = .null ∧
          (fetchTraceroute env host w).app.selectedHost = .null) ∧
      (∀ data e,
        env.fetch (.get (API_BASE ++ "/api/traceroute/" ++ host)) = .response true (some data) →
        getProp data "error" = .ok e → truthy e = true →
        (fetchTraceroute env host w).app.traceroute = .null ∧
          (fetchTraceroute env host w).app.selectedHost = .null) ∧
      (∀ data e,
        env.fetch (.get (API_BASE ++ "/api/traceroute/" ++ host)) = .response true (some data) →
        getProp data "error" = .ok e → truthy e = false →
        (fetchTraceroute env host w).app.traceroute = data ∧
          (fetchTraceroute env host w).app.selectedHost = .str host) := by
  refine ⟨?_, ?_, ?_, ?_⟩
  · intro h
    rw [fetchTraceroute_of_failed env host w h]
    exact ⟨rfl, rfl⟩
  · intro data hr h
    rw [fetchTraceroute_of_nullish env host w data hr h]
    exact ⟨rfl, rfl⟩
  · intro data e hr he ht
    rw [fetchTraceroute_of_body env host w data e hr he, if_pos ht]
    exact ⟨rfl, rfl⟩
  · intro data e hr he ht
    rw [fetchTraceroute_of_body env host w data e hr he, if_neg (by simp [ht])]
    exact ⟨rfl, rfl⟩

theorem strictEqStr_iff (v : JSVal) (s : String) : strictEqStr v s = true ↔ v = .str s := by
  cases v <;> simp [strictEqStr]

theorem handleRemoveHost_of_ok (env : Env) (host : String) (w : World) (json : Option JSVal)
    (hr : env.fetch (.post (API_BASE ++ "/remove_host") [("host", host)]) = .response true json) :
    handleRemoveHost env host w =
      if strictEqStr w.app.selectedHost host then
        clearTraceroute
          (fetchMetrics env (w.send (.post (API_BASE ++ "/remove_host") [("host", host)])))
      else fetchMetrics env (w.send (.post (API_BASE ++ "/remove_host") [("host", host)])) := by
  simp [handleRemoveHost, hr]

theorem handleRemoveHost_of_not_ok (env : Env) (host : String) (w : World)
    (hr : ¬ ∃ json,
      env.fetch (.post (API_BASE ++ "/remove_host") [("host", host)]) = .response true json) :
    handleRemoveHost env host w
      = w.send (.post (API_BASE ++ "/remove_host") [("host", host)]) := by
  cases hf : env.fetch (.post (API_BASE ++ "/remove_host") [("host", host)]) with
  | rejected => simp [handleRemoveHost, hf]
  | response ok json =>
    cases ok with
    | false => simp [handleRemoveHost, hf]
    | true => exact absurd ⟨json, hf⟩ hr

/-- C6: when the remove request is answered ok and `selectedHost` is the removed
host, `traceroute` and `selectedHost` are both null afterwards; when the request
fails (rejected or not ok) or `selectedHost` is not the removed host, both are
unchanged. -/
theorem remove_closes_own_panel (env : Env) (host : String) (w : World) :
    ((∃ json,
        env.fetch (.post (API_BASE ++ "/remove_host") [("host", host)]) = .response true json) →
      w.app.selectedHost = .str host →
      (handleRemoveHost env host w).app.traceroute = .null ∧
        (handleRemoveHost env host w).app.selectedHost = .null) ∧
    ((¬ ∃ json,
        env.fetch (.post (API_BASE ++ "/remove_host") [("host", host)]) = .response true json) ∨
      w.app.selectedHost ≠ .str host →
      (handleRemoveHost env host w).app.traceroute = w.app.traceroute ∧
        (handleRemoveHost env host w).app.selectedHost = w.app.selectedHost) := by
  refine ⟨?_, ?_⟩
  · rintro ⟨json, hr⟩ hsel
    rw [handleRemoveHost_of_ok env host w json hr, if_pos ((strictEqStr_iff _ _).mpr hsel)]
    exact ⟨rfl, rfl⟩
  · intro h
    by_cases hok : ∃ json,
        env.fetch (.post (API_BASE ++ "/remove_host") [("host", host)]) = .response true json
    · obtain ⟨json, hr⟩ := hok
      have hsel : w.app.selectedHost ≠ .str host := by
        rcases h with h | h
        · exact absurd ⟨json, hr⟩ h
        · exact h
      have hne : ¬ strictEqStr w.app.selectedHost host = true :=
        fun hc => hsel ((strictEqStr_iff _ _).mp hc)
      rw [handleRemoveHost_of_ok env host w json hr, if_neg hne]
      have hframe :=
        fetchMetrics_frame env (w.send (.post (API_BASE ++ "/remove_host") [("host", host)]))
      exact ⟨hframe.1, hframe.2.1⟩
    · rw [handleRemoveHost_of_not_ok env host w hok]
      exact ⟨rfl, rfl⟩

theorem dropWhile_reverse_dropWhile_eq_nil {α : Type} (p : α → Bool) (l : List α) :
    ((l.dropWhile p).reverse.dropWhile p).reverse = [] ↔ ∀ x ∈ l, p x = true := by
  rw [List.reverse_eq_nil_iff, List.dropWhile_eq_nil_iff]
  constructor
  · intro h
    have hnil : l.dropWhile p = [] := by
      cases hd : l.dropWhile p with
      | nil => rfl
      | cons a rest =>
        have hpa : p a = true := h a (by simp [hd])
        have hhead := List.head_dropWhile_not p l (by simp [hd])
        simp [hd, hpa] at hhead
    exact List.dropWhile_eq_nil_iff.mp hnil
  · intro h x hx
    have hnil : l.dropWhile p = [] := List.dropWhile_eq_nil_iff.mpr h
    simp [hnil] at hx

theorem jsTrim_eq_empty_iff (s : String) :
    jsTrim s = "" ↔ ∀ c ∈ s.data, isTrimChar c = true := by
  rw [← dropWhile_reverse_dropWhile_eq_nil isTrimChar s.data]
  unfold jsTrim
  constructor
  · intro h
    have := congrArg String.data h
    simpa using this
  · intro h
    rw [h]

/-- C7: when `newHost` is empty after trimming, which is when all its characters
are white space, `handleAddHost` issues no request and leaves the whole state as
it was; otherwise the first request it issues is the `POST /add_host` whose form
has the single field `host` holding the trimmed input. -/
theorem add_host_rejects_blank (env : Env) (w : World) :
    ((jsTrim w.app.newHost = "" ↔ ∀ c ∈ w.app.newHost.data, isTrimChar c = true)) ∧
    (jsTrim w.app.newHost = "" → handleAddHost env w = w) ∧
    (jsTrim w.app.newHost ≠ "" →
      ∃ rest, (handleAddHost env w).sent
        = w.sent ++
            Request.post (API_BASE ++ "/add_host") [("host", jsTrim w.app.newHost)] :: rest) := by
  refine ⟨jsTrim_eq_empty_iff _, ?_, ?_⟩
  · intro h
    simp [handleAddHost, h, truthy]
  · intro h
    cases hf : env.fetch (.post (API_BASE ++ "/add_host") [("host", jsTrim w.app.newHost)]) with
    | rejected =>
      refine ⟨[], ?_⟩
      simp [handleAddHost, h, truthy, hf, World.send]
    | response ok json =>
      cases ok with
      | false =>
        refine ⟨[], ?_⟩
        simp [handleAddHost, h, truthy, hf, World.send]
      | true =>
        refine ⟨[.get (API_BASE ++ "/metrics")], ?_⟩
        simp [handleAddHost, h, truthy, hf, World.send, (fetchMetrics_frame env _).2.2.2.2]

/-- C8: after a `/metrics` response that is ok and whose body is an object,
`metrics` is the body's `metrics` object, or the empty object when the field is
missing, and `alerts` is the body's `alerts` array, or the empty array when the
field is missing, whatever the state held before; after a failed request both
are unchanged. -/
theorem metrics_and_alerts_replaced (env : Env) (w : World) :
    (∀ props,
      env.fetch (.get (API_BASE ++ "/metrics")) = .response true (some (.obj props)) →
      (∀ hosts, lookupProp "metrics" props = .obj hosts →
        (fetchMetrics env w).app.metrics = .obj hosts) ∧
      (lookupProp "metrics" props = .undefined → (fetchMetrics env w).app.metrics = .obj []) ∧
      (∀ items, lookupProp "alerts" props = .arr items →
        (fetchMetrics env w).app.alerts = .arr items) ∧
      (lookupProp "alerts" props = .undefined → (fetchMetrics env w).app.alerts = .arr [])) ∧
    (requestFailed (env.fetch (.get (API_BASE ++ "/metrics"))) = true →
      (fetchMetrics env w).app.metrics = w.app.metrics ∧
        (fetchMetrics env w).app.alerts = w.app.alerts) := by
  refine ⟨?_, ?_⟩
  · intro props hr
    have h := fetchMetrics_of_body env w (.obj props) _ _ hr rfl rfl
    rw [h]
    refine ⟨?_, ?_, ?_, ?_⟩
    · intro hosts hm
      simp [hm, jsOr, truthy]
    · intro hm
      simp [hm, jsOr, truthy]
    · intro items ha
      simp [ha, jsOr, truthy]
    · intro ha
      simp [ha, jsOr, truthy]
  · intro h
    rw [fetchMetrics_of_failed env w h]
    exact ⟨rfl, rfl⟩

/-! ## The traceroute panel across events -/

theorem ne_null_of_not_nullish {v : JSVal} (h : nullish v = false) : v ≠ .null := by
  intro hv
  rw [hv] at h
  cases h

theorem clearTraceroute_consistent (w : World) :
    ((clearTraceroute w).app.traceroute = .null ↔ (clearTraceroute w).app.selectedHost = .null) :=
  ⟨fun _ => rfl, fun _ => rfl⟩

theorem fetchTraceroute_consistent (env : Env) (host : String) (w : World) :
    ((fetchTraceroute env host w).app.traceroute = .null ↔
      (fetchTraceroute env host w).app.selectedHost = .null) := by
  cases hf : requestFailed (env.fetch (.get (API_BASE ++ "/api/traceroute/" ++ host))) with
  | true =>
    rw [fetchTraceroute_of_failed env host w hf]
    exact clearTraceroute_consistent _
  | false =>
    cases hr : env.fetch (.get (API_BASE ++ "/api/traceroute/" ++ host)) with
    | rejected => rw [hr] at hf; simp [requestFailed] at hf
    | response ok json =>
      rw [hr] at hf
      cases ok with
      | false => simp [requestFailed] at hf
      | true =>
        cases json with
        | none => simp [requestFailed] at hf
        | some data =>
          cases hn : nullish data with
          | true =>
            rw [fetchTraceroute_of_nullish env host w data hr hn]
            exact clearTraceroute_consistent _
          | false =>
            obtain ⟨e, he⟩ := getProp_ok data "error" hn
            rw [fetchTraceroute_of_body env host w data e hr he]
            cases ht : truthy e with
            | true =>
              rw [if_pos rfl]
              exact clearTraceroute_consistent _
            | false =>
              rw [if_neg (by simp)]
              constructor
              · intro h
                exact absurd h (ne_null_of_not_nullish hn)
              · intro h
                cases h

theorem fetchMetrics_consistent (env : Env) (w : World)
    (h : w.app.traceroute = .null ↔ w.app.selectedHost = .null) :
    ((fetchMetrics env w).app.traceroute = .null ↔
      (fetchMetrics env w).app.selectedHost = .null) := by
  rw [(fetchMetrics_frame env w).1, (fetchMetrics_frame env w).2.1]
  exact h

theorem handleRemoveHost_consistent (env : Env) (host : String) (w : World)
    (h : w.app.traceroute = .null ↔ w.app.selectedHost = .null) :
    ((handleRemoveHost env host w).app.traceroute = .null ↔
      (handleRemoveHost env host w).app.selectedHost = .null) := by
  by_cases hok : ∃ json,
      env.fetch (.post (API_BASE ++ "/remove_host") [("host", host)]) = .response true json
  · obtain ⟨json, hr⟩ := hok
    rw [handleRemoveHost_of_ok env host w json hr]
    split
    · exact clearTraceroute_consistent _
    · exact fetchMetrics_consistent env _ h
  · rw [handleRemoveHost_of_not_ok env host w hok]
    exact h

theorem handleAddHost_consistent (env : Env) (w : World)
    (h : w.app.traceroute = .null ↔ w.app.selectedHost = .null) :
    ((handleAddHost env w).app.traceroute = .null ↔
      (handleAddHost env w).app.selectedHost = .null) := by
  unfold handleAddHost
  dsimp only
  split
  · exact h
  · split
    · exact h
    · split
      · exact fetchMetrics_consistent env _ h
      · exact h

theorem step_consistent (w : World) (e : Event)
    (h : w.app.traceroute = .null ↔ w.app.selectedHost = .null) :
    ((step w e).app.traceroute = .null ↔ (step w e).app.selectedHost = .null) := by
  cases e with
  | viewTraceroute env host => exact fetchTraceroute_consistent env host w
  | removeHost env host => exact handleRemoveHost_consistent env host w h
  | closePanel => exact clearTraceroute_consistent w
  | poll env => exact fetchMetrics_consistent env w h
  | addHost env => exact handleAddHost_consistent env w h
  | retry env => exact fetchMetrics_consistent env _ h
  | typeHost value => exact h

theorem runEvents_consistent (events : List Event) (w : World)
    (h : w.app.traceroute = .null ↔ w.app.selectedHost = .null) :
    ((runEvents w events).app.traceroute = .null ↔
      (runEvents w events).app.selectedHost = .null) := by
  induction events generalizing w with
  | nil => exact h
  | cons e rest ih => exact ih (step w e) (step_consistent w e h)

/-- C11: in every state reached from the initial state by a sequence of events,
among them `fetchTraceroute` with any answer of the network, `handleRemoveHost`
and the close button of the panel, `traceroute` is null exactly when
`selectedHost` is null. -/
theorem traceroute_null_iff_selectedHost_null (mountTime : Nat) (events : List Event) :
    ((runEvents { app := initialState mountTime, sent := [] } events).app.traceroute = .null ↔
      (runEvents { app := initialState mountTime, sent := [] } events).app.selectedHost
        = .null) :=
  runEvents_consistent events _ ⟨fun _ => rfl, fun _ => rfl⟩

/-- Both sides of the equivalence occur: after one successful "View Traceroute"
the panel holds the body and the host, and a close empties both. -/
theorem panel_opens_and_closes :
    (runEvents { app := initialState 0, sent := [] }
        [.viewTraceroute
          { fetch := fun _ => .response true (some (.obj [("hop_count", .num 3)])), now := 0 }
          "8.8.8.8"]).app.traceroute = .obj [("hop_count", .num 3)] ∧
      (runEvents { app := initialState 0, sent := [] }
        [.viewTraceroute
          { fetch := fun _ => .response true (some (.obj [("hop_count", .num 3)])), now := 0 }
          "8.8.8.8"]).app.selectedHost = .str "8.8.8.8" ∧
      (runEvents { app := initialState 0, sent := [] }
        [.viewTraceroute
          { fetch := fun _ => .response true (some (.obj [("hop_count", .num 3)])), now := 0 }
          "8.8.8.8",
         .closePanel]).app.traceroute = .null ∧
      (runEvents { app := initialState 0, sent := [] }
        [.viewTraceroute
          { fetch := fun _ => .response true (some (.obj [("hop_count", .num 3)])), now := 0 }
          "8.8.8.8",
         .closePanel]).app.selectedHost = .null := by
  have h := fetchTraceroute_of_body
    { fetch := fun _ => .response true (some (.obj [("hop_count", .num 3)])), now := 0 }
    "8.8.8.8" { app := initialState 0, sent := [] } (.obj [("hop_count", .num 3)]) .undefined
    rfl (by simp [getProp, lookupProp])
  simp only [truthy, Bool.false_eq_true, if_false] at h
  simp only [runEvents, List.foldl, step, h]
  exact ⟨trivial, trivial, rfl, rfl⟩

end NetworkMonitor
